import Mathlib

/-!
Verification development for the Azure Log Analyzer dashboard front-end.

The JavaScript source is shallowly embedded: result rows are association
lists from column names to values, JavaScript numbers are idealized as
rational numbers (no NaN/Infinity and exact arithmetic; every claim
checked here is about finite values where the idealization is faithful),
strings are Lean strings (the sources only manipulate them by `substring`,
`toLowerCase`, `includes`, all of which are modelled character-wise), and
JavaScript objects used as counters are insertion-ordered association
lists, with `Object.keys` enumeration order (integer-like keys first, in
ascending numeric order, then the remaining keys in insertion order)
modelled explicitly.
-/

namespace AzureLog

/-- A JavaScript value as it occurs in a query-result row.  `vnull` stands
for both `null` and `undefined` (every code path embedded here treats the
two identically: both are dropped by the aggregator's retention filter,
both are falsy, and both are replaced by a placeholder before being
rendered). -/
inductive Value where
  | vnull
  | vnum (q : ℚ)
  | vstr (s : String)
  | vbool (b : Bool)
deriving DecidableEq

/-- A result row: mapping from column name to value (`row[col]`). -/
abbrev Row := List (String × Value)

/-- `row[col]`: first binding of the column name, `undefined` (here
`vnull`) when the key is absent. -/
def getField (r : Row) (c : String) : Value :=
  match r.find? (fun p => p.1 == c) with
  | some p => p.2
  | none => Value.vnull

/-- `typeof v === 'number'`. -/
def isNumType : Value → Bool
  | Value.vnum _ => true
  | _ => false

/-- `typeof v === 'string'`. -/
def isStrType : Value → Bool
  | Value.vstr _ => true
  | _ => false

/-- JavaScript truthiness test (`v` used in a boolean position): `null`,
`undefined`, `0`, `""` and `false` are falsy. -/
def jsFalsy : Value → Bool
  | Value.vnull => true
  | Value.vnum q => q == 0
  | Value.vstr s => s == ""
  | Value.vbool b => !b

/-- Decimal digit run to a natural number. -/
def digitsToNat (l : List Char) : ℕ :=
  l.foldl (fun a c => 10 * a + (c.toNat - 48)) 0

/-- Power of ten as a rational, by structural recursion (kept
kernel-reducible on purpose). -/
def pow10 : ℕ → ℚ
  | 0 => 1
  | n + 1 => 10 * pow10 n

/-- Rendering of an integer in decimal, as JavaScript `String(i)` does. -/
def intToString (i : ℤ) : String :=
  match i with
  | Int.ofNat n => Nat.repr n
  | Int.negSucc n => "-" ++ Nat.repr (n + 1)

/-- Rendering of a number, as JavaScript `String(n)` does.  Faithful for
integral values (the only numbers the concrete inputs of this development
render); a non-integral rational is rendered as `num/den`, a deterministic
stand-in for JavaScript's shortest-double rendering. -/
def ratToString (q : ℚ) : String :=
  if q.den = 1 then intToString q.num else intToString q.num ++ "/" ++ Nat.repr q.den

/-- JavaScript `String(v)` conversion. -/
def jsToString : Value → String
  | Value.vnull => "null"
  | Value.vnum q => ratToString q
  | Value.vstr s => s
  | Value.vbool b => if b then "true" else "false"

/-- `c.toLowerCase()` (character-wise; the sources only lowercase ASCII
column names). -/
def lowerStr (s : String) : String := String.mk (s.data.map Char.toLower)

/-- `hay.includes(sub)`: substring test. -/
def containsSub (hay sub : String) : Bool :=
  (List.range (hay.data.length + 1)).any (fun i => sub.data.isPrefixOf (hay.data.drop i))

/-! ### `parseFloat`

JavaScript `parseFloat` skips leading whitespace, then reads the longest
prefix of the form `[+-]? digits [. digits]? ([eE] [+-]? digits)?` (also
`.digits`), returning `NaN` when no such prefix exists.  The model returns
the parsed value together with the unconsumed characters; `none` is `NaN`.
(The `Infinity` literal accepted by `parseFloat` is not modelled; no claim
involves it.) -/

/-- Scale a mantissa by the parsed exponent. -/
def applyExp (q : ℚ) : ℤ → ℚ
  | Int.ofNat n => q * pow10 n
  | Int.negSucc n => q / pow10 (n + 1)

/-- Parse an optional exponent part (`e`/`E`, optional sign, digits); when
the part is malformed it is not consumed at all, exactly as `strtod`-style
longest-valid-prefix parsing behaves. -/
def parseExpPart (cs : List Char) : ℤ × List Char :=
  match cs with
  | [] => (0, [])
  | c :: r =>
    if c = 'e' ∨ c = 'E' then
      match r with
      | [] => (0, cs)
      | s :: r2 =>
        if s = '-' then
          let d := r2.takeWhile (·.isDigit)
          if d.isEmpty then (0, cs) else (-(digitsToNat d : ℤ), r2.dropWhile (·.isDigit))
        else if s = '+' then
          let d := r2.takeWhile (·.isDigit)
          if d.isEmpty then (0, cs) else ((digitsToNat d : ℤ), r2.dropWhile (·.isDigit))
        else
          let d := r.takeWhile (·.isDigit)
          if d.isEmpty then (0, cs) else ((digitsToNat d : ℤ), r.dropWhile (·.isDigit))
    else (0, cs)

/-- Parse an unsigned decimal mantissa plus optional exponent; fails when
there is no digit before or after the decimal point. -/
def parseUnsignedParts (cs : List Char) : Option (ℚ × List Char) :=
  let ip := cs.takeWhile (·.isDigit)
  let rest1 := cs.dropWhile (·.isDigit)
  let fp : List Char :=
    match rest1 with
    | '.' :: r => r.takeWhile (·.isDigit)
    | _ => []
  let rest2 : List Char :=
    match rest1 with
    | '.' :: r => r.dropWhile (·.isDigit)
    | _ => rest1
  if ip.isEmpty && fp.isEmpty then none
  else
    let mant : ℚ := (digitsToNat ip : ℚ) + (digitsToNat fp : ℚ) / pow10 fp.length
    let ex := parseExpPart rest2
    some (applyExp mant ex.1, ex.2)

/-- `parseFloat(s)` returning the value and the unconsumed suffix. -/
def jsParseFloatParts (s : String) : Option (ℚ × List Char) :=
  let cs := s.data.dropWhile (·.isWhitespace)
  match cs with
  | '-' :: r => (parseUnsignedParts r).map (fun p => (-p.1, p.2))
  | '+' :: r => parseUnsignedParts r
  | _ => parseUnsignedParts cs

/-- `parseFloat(s)`: `none` is `NaN`. -/
def jsParseFloatStr (s : String) : Option ℚ :=
  (jsParseFloatParts s).map Prod.fst

/-- `parseFloat(v)` on an arbitrary value: JavaScript first converts the
argument with `String(v)`.  For a native (finite) number this round-trips
to the number itself, which the model takes directly. -/
def jsParseFloat : Value → Option ℚ
  | Value.vnum q => some q
  | v => jsParseFloatStr (jsToString v)

/-- The test `typeof v === 'number' || !isNaN(parseFloat(v))` used
throughout the sources to decide whether a value is usable as a number. -/
def isNumericish (v : Value) : Bool :=
  match v with
  | Value.vnum _ => true
  | v => (jsParseFloat v).isSome

/-- Modelled from the spec: "fully parseable as a float" — the spec's
strict reading of numeric parsing, under which the whole string (after
leading whitespace) must be consumed by the float syntax.  This is the
spec-side comparison point for C2; the source's `parseFloat` (above)
accepts any numeric prefix. -/
def specFullyParsesAsFloat (s : String) : Bool :=
  match jsParseFloatParts s with
  | some (_, []) => true
  | _ => false

/-! ### Statistics aggregator (`calculateStatistics`, part_000 lines 691-730) -/

/-- One entry of `numericStats`. -/
structure NumStat where
  column : String
  min : ℚ
  max : ℚ
  avg : ℚ
  sum : ℚ
deriving DecidableEq

/-- One `{value, count}` pair of a categorical breakdown. -/
structure CatEntry where
  value : String
  count : ℕ
deriving DecidableEq

/-- One entry of `categoryStats`. -/
structure CatStat where
  column : String
  values : List CatEntry
deriving DecidableEq

/-- `data.map(row => row[col]).filter(v => v !== null && v !== undefined)`. -/
def retainedValues (data : List Row) (col : String) : List Value :=
  (data.map (fun row => getField row col)).filter (fun v => v != Value.vnull)

/-- `values.filter(v => typeof v === 'number' || !isNaN(parseFloat(v))).map(v => parseFloat(v))`. -/
def numericValuesOf (data : List Row) (col : String) : List ℚ :=
  ((retainedValues data col).filter isNumericish).map (fun v => (jsParseFloat v).getD 0)

/-- `Math.min(...l)` for the non-empty lists on which the source calls it. -/
def mathMin : List ℚ → ℚ
  | [] => 0
  | x :: t => t.foldl min x

/-- `Math.max(...l)` for the non-empty lists on which the source calls it. -/
def mathMax : List ℚ → ℚ
  | [] => 0
  | x :: t => t.foldl max x

/-- `l.reduce((a, b) => a + b, 0)`. -/
def sumList (l : List ℚ) : ℚ := l.foldl (· + ·) 0

/-- `counts[key] = (counts[key] || 0) + 1` on an insertion-ordered object:
an existing key is incremented in place, a new key is appended. -/
def bump : List (String × ℕ) → String → List (String × ℕ)
  | [], k => [(k, 1)]
  | (k2, c) :: t, k => if k2 = k then (k2, c + 1) :: t else (k2, c) :: bump t k

/-- The counter object built by iterating `bump` over a list of keys. -/
def countsList (keys : List String) : List (String × ℕ) :=
  keys.foldl bump []

/-- `counts[k]`, defaulting to `0` for an absent key. -/
def lookupCount (m : List (String × ℕ)) (k : String) : ℕ :=
  match m.find? (fun p => p.1 == k) with
  | some p => p.2
  | none => 0

/-- `String(v).substring(0, 50)`: the truncated-string key used by the
aggregator's frequency counter. -/
def truncKey50 (v : Value) : String := (jsToString v).take 50

/-- The counter the aggregator builds for one column. -/
def countsOf (data : List Row) (col : String) : List (String × ℕ) :=
  countsList ((retainedValues data col).map truncKey50)

/-- Stable insertion step for sorting `{value, count}` entries by
descending count.  (JavaScript `Array.prototype.sort` is stable; a stable
insertion sort is observationally the same sort.) -/
def insertCatDesc (x : CatEntry) : List CatEntry → List CatEntry
  | [] => [x]
  | y :: t => if y.count ≤ x.count then x :: y :: t else y :: insertCatDesc x t

/-- `.sort((a, b) => b.count - a.count)` — stable, descending by count. -/
def sortByCountDesc (l : List CatEntry) : List CatEntry :=
  l.foldr insertCatDesc []

/-- Outcome of the per-column loop body of `calculateStatistics`: a push
onto `numericStats`, a push onto `categoryStats`, or nothing. -/
inductive ColOutcome where
  | num (s : NumStat)
  | cat (s : CatStat)
  | skip
deriving DecidableEq

/-- Projection used to model the `numericStats` pushes. -/
def ColOutcome.getNum : ColOutcome → Option NumStat
  | ColOutcome.num s => some s
  | _ => none

/-- Projection used to model the `categoryStats` pushes. -/
def ColOutcome.getCat : ColOutcome → Option CatStat
  | ColOutcome.cat s => some s
  | _ => none

/-- The loop body of `calculateStatistics` for one column (part_000 lines
695-726): if every retained value is numeric (and there is at least one),
push numeric stats; otherwise, if retained values exist, count string-key
frequencies and push a categorical breakdown exactly when the number of
distinct keys lies in (1, 20]. -/
def analyzeColumn (data : List Row) (col : String) : ColOutcome :=
  if 0 < (numericValuesOf data col).length ∧
      (numericValuesOf data col).length = (retainedValues data col).length then
    ColOutcome.num
      { column := col
        min := mathMin (numericValuesOf data col)
        max := mathMax (numericValuesOf data col)
        avg := sumList (numericValuesOf data col) / ((numericValuesOf data col).length : ℚ)
        sum := sumList (numericValuesOf data col) }
  else if 0 < (retainedValues data col).length then
    if (countsOf data col).length ≤ 20 ∧ 1 < (countsOf data col).length then
      ColOutcome.cat
        { column := col
          values := sortByCountDesc ((countsOf data col).map (fun p => { value := p.1, count := p.2 })) }
    else ColOutcome.skip
  else ColOutcome.skip

/-- The `{numericStats, categoryStats}` record. -/
structure StatisticsReport where
  numericStats : List NumStat
  categoryStats : List CatStat
deriving DecidableEq

/-- `calculateStatistics(data, columns)` (part_000 lines 691-730): run the
per-column loop in column order, then truncate `numericStats` to 5 and
`categoryStats` to 3. -/
def calculateStatistics (data : List Row) (columns : List String) : StatisticsReport :=
  { numericStats := ((columns.map (analyzeColumn data)).filterMap ColOutcome.getNum).take 5
    categoryStats := ((columns.map (analyzeColumn data)).filterMap ColOutcome.getCat).take 3 }

/-- Whether the loop pushes the column onto `numericStats`. -/
def isNumCol (data : List Row) (c : String) : Bool :=
  match analyzeColumn data c with
  | ColOutcome.num _ => true
  | _ => false

/-- Whether the loop pushes the column onto `categoryStats` (before the
3-column truncation). -/
def isCatCol (data : List Row) (c : String) : Bool :=
  match analyzeColumn data c with
  | ColOutcome.cat _ => true
  | _ => false

/-- First-occurrence insertion used to describe distinct keys. -/
def insertOnce (acc : List String) (k : String) : List String :=
  if k ∈ acc then acc else acc ++ [k]

/-- The distinct members of `l` in first-occurrence order. -/
def firstOccurrences (l : List String) : List String :=
  l.foldl insertOnce []

/-- The number of distinct truncated-string keys of a column's retained
values — the claim-side "distinct-value count" of C1. -/
def catKeyCountOf (data : List Row) (col : String) : ℕ :=
  (firstOccurrences ((retainedValues data col).map truncKey50)).length

/-! ### Report renderers (`showStatistics` lines 662-678, `showSummaryReport`
lines 780-796): category distribution tables -/

/-- Rounding to one decimal, as `x.toFixed(1)` renders (round half up;
the sources only ever format non-negative percentages). -/
def roundTo1 (q : ℚ) : ℚ :=
  (Int.fdiv (q * 10 + 1 / 2).num (q * 10 + 1 / 2).den : ℚ) / 10

/-- One rendered row of a category distribution table. -/
structure RenderedCatRow where
  value : String
  count : ℕ
  pct : ℚ
deriving DecidableEq

/-- The rows of one category table: `cat.values.slice(0, 10)` with
percentage `((v.count / data.length) * 100).toFixed(1)` — note the divisor
is the total row count `data.length`.  `dataLen` is `data.length`. -/
def renderCategoryRows (dataLen : ℕ) (cat : CatStat) : List RenderedCatRow :=
  (cat.values.take 10).map (fun v =>
    { value := v.value, count := v.count, pct := roundTo1 ((v.count : ℚ) / (dataLen : ℚ) * 100) })

/-- The category distribution tables of `showSummaryReport` (and the
identically computed tables of `showStatistics`): one `(column, rows)`
table per entry of `categoryStats`. -/
def showSummaryReportCategoryTables (data : List Row) (columns : List String) :
    List (String × List RenderedCatRow) :=
  (calculateStatistics data columns).categoryStats.map
    (fun cat => (cat.column, renderCategoryRows data.length cat))

/-! ### Chart builder (`analyzeDataForChart` lines 522-604,
`findNumericColumn` lines 418-426, `renderChart` lines 428-520) -/

/-- The value-column priority keyword list of `analyzeDataForChart`. -/
def numericPriority : List String :=
  ["count", "count_", "sum", "avg", "min", "max", "value", "total", "duration",
   "size", "CounterValue", "ResultCount"]

/-- The label-column priority keyword list of `analyzeDataForChart`. -/
def labelPriority : List String :=
  ["name", "type", "category", "computer", "resource", "level", "status"]

/-- `pats.some(p => col.toLowerCase().includes(p.toLowerCase()))`. -/
def colMatchesAny (col : String) (pats : List String) : Bool :=
  pats.any (fun p => containsSub (lowerStr col) (lowerStr p))

/-- `findNumericColumn` (lines 418-426): first column whose first-10-row
sample contains a numeric-or-parseable value, else the first column. -/
def findNumericColumn (data : List Row) (columns : List String) : String :=
  match columns.find? (fun col =>
      ((data.take 10).map (fun row => getField row col)).any isNumericish) with
  | some c => c
  | none => columns.headD ""

/-- The value-column search of `analyzeDataForChart` (lines 524-559): a
preferred column is kept when *some row of the whole data set* holds a
numeric-or-parseable value in it (`data.some(...)`), else discarded; then
the keyword-priority pass (requiring the first row's value to be a native
number), then the first column whose first-row value is a native number. -/
def findValueColumn (data : List Row) (columns : List String) (pref : Option String) :
    Option String :=
  let vc0 : Option String :=
    match pref with
    | some c =>
      if data.any (fun row => isNumericish (getField row c)) then some c else none
    | none => none
  let row0 : Row := data.headD []
  let vc1 : Option String :=
    match vc0 with
    | some c => some c
    | none =>
      columns.find? (fun col =>
        colMatchesAny col numericPriority && isNumType (getField row0 col))
  match vc1 with
  | some c => some c
  | none => columns.find? (fun col => isNumType (getField row0 col))

/-- The label-column search of `analyzeDataForChart` (lines 562-588). -/
def findLabelColumn (data : List Row) (columns : List String) (vc : String) : String :=
  let row0 : Row := data.headD []
  match columns.find? (fun col => col != vc && colMatchesAny col labelPriority) with
  | some c => c
  | none =>
    match columns.find? (fun col =>
        col != vc && !containsSub (lowerStr col) "time" && !containsSub (lowerStr col) "date" &&
        isStrType (getField row0 col)) with
    | some c => c
    | none =>
      match columns.find? (fun col => containsSub (lowerStr col) "time") with
      | some c => c
      | none => columns.headD ""

/-- Label extraction (lines 591-596): long strings are truncated with an
ellipsis, `null`/`undefined` render as `"N/A"`.  (The `instanceof Date`
branch is not modelled; result values arrive as JSON, never as `Date`.) -/
def labelString (v : Value) : String :=
  match v with
  | Value.vstr s => if 30 < s.length then s.take 30 ++ "..." else s
  | Value.vnull => "N/A"
  | v => jsToString v

/-- Value coercion (lines 598-601): `typeof val === 'number' ? val :
parseFloat(val) || 0` — an unparseable value becomes `0`, never dropped. -/
def coerceValue (v : Value) : ℚ :=
  match v with
  | Value.vnum q => q
  | v => (jsParseFloat v).getD 0

/-- The chart data produced by `analyzeDataForChart`. -/
structure ChartData where
  labels : List String
  values : List ℚ
  labelColumn : String
  valueColumn : String
deriving DecidableEq

/-- `analyzeDataForChart(data, columns, preferredColumn)` (lines 522-604):
`none` models the `null` ("not chartable") return. -/
def analyzeDataForChart (data : List Row) (columns : List String) (pref : Option String) :
    Option ChartData :=
  match findValueColumn data columns pref with
  | none => none
  | some vc =>
    let lc := findLabelColumn data columns vc
    some
      { labels := data.map (fun row => labelString (getField row lc))
        values := data.map (fun row => coerceValue (getField row vc))
        labelColumn := lc
        valueColumn := vc }

/-- The labels/values the chart constructed by `renderChart` actually
uses: `chartData.labels.slice(0, 50)` and `chartData.values.slice(0, 50)`
(lines 474 and 477). -/
structure RenderedChart where
  labels : List String
  values : List ℚ
deriving DecidableEq

/-- The cap applied by `renderChart` to the builder's output. -/
def renderChartData (data : List Row) (columns : List String) (pref : Option String) :
    Option RenderedChart :=
  (analyzeDataForChart data columns pref).map
    (fun cd => { labels := cd.labels.take 50, values := cd.values.take 50 })

/-! ### `updateChart` fallback chart (app.js lines 546-604) -/

/-- `k` is an array-index property name (canonical decimal numeral below
2^32 - 1); such keys are enumerated first by `Object.keys`, in ascending
numeric order. -/
def isArrayIndexKey (s : String) : Bool :=
  !s.data.isEmpty && s.data.all (·.isDigit) &&
    (s == "0" || s.data.headD '0' != '0') && decide (digitsToNat s.data < 4294967295)

/-- Numeric value of an array-index key. -/
def keyNumVal (s : String) : ℕ := digitsToNat s.data

/-- Insertion step for sorting array-index keys ascending. -/
def insertKeyAsc (x : String) : List String → List String
  | [] => [x]
  | y :: t => if keyNumVal x ≤ keyNumVal y then x :: y :: t else y :: insertKeyAsc x t

/-- Ascending numeric sort of array-index keys. -/
def sortKeysAsc (l : List String) : List String :=
  l.foldr insertKeyAsc []

/-- The keys of the association list, in insertion order. -/
def keysOf (m : List (String × ℕ)) : List String := m.map Prod.fst

/-- `Object.keys(counts)`: array-index keys first in ascending numeric
order, then the remaining keys in insertion order (ECMAScript ordinary
own-property-key enumeration). -/
def jsObjectKeys (m : List (String × ℕ)) : List String :=
  sortKeysAsc ((keysOf m).filter isArrayIndexKey) ++
    (keysOf m).filter (fun k => !isArrayIndexKey k)

/-- The grouping key of the fallback chart (line 580):
`String(row[countColumn] || 'Unknown').substring(0, 30)` — every falsy
value (not only null/undefined) becomes the literal `"Unknown"`. -/
def fallbackKey (v : Value) : String :=
  (jsToString (if jsFalsy v then Value.vstr "Unknown" else v)).take 30

/-- The grouping column of the fallback chart: `labelColumn || columns[0]`
where `labelColumn` is the first column whose first-row value is a
string. -/
def fallbackCountColumn (results : List Row) (columns : List String) : String :=
  match columns.find? (fun c => isStrType (getField (results.headD []) c)) with
  | some c => c
  | none => columns.headD ""

/-- Label of one row in the numeric branch of `updateChart`:
`String(row[labelColumn] || '').substring(0, 20)`. -/
def numLabelOf (v : Value) : String :=
  (jsToString (if jsFalsy v then Value.vstr "" else v)).take 20

/-- The grouping keys of the fallback chart, one per result row. -/
def fallbackKeys (results : List Row) (columns : List String) : List String :=
  results.map (fun row => fallbackKey (getField row (fallbackCountColumn results columns)))

/-- What `updateChart` hands to `createChart`. -/
inductive ChartOutcome where
  | countChart (labels : List String) (chartData : List ℕ)
  | numericChart (labels : List String) (datasets : List (String × List Value))
deriving DecidableEq

/-- `updateChart` (app.js lines 546-604): columns whose first-row value is
a native number become value columns; with none, fall back to a frequency
count over the grouping column, keeping `Object.keys(counts).slice(0, 20)`
as labels; otherwise chart the first 50 rows of up to 3 value columns. -/
def updateChart (results : List Row) (columns : List String) : ChartOutcome :=
  if (columns.filter (fun c => isNumType (getField (results.headD []) c))).isEmpty then
    let counts := countsList (fallbackKeys results columns)
    let labels := (jsObjectKeys counts).take 20
    ChartOutcome.countChart labels (labels.map (fun l => lookupCount counts l))
  else
    let labelColumn := columns.find? (fun c => isStrType (getField (results.headD []) c))
    let labels := (results.take 50).enum.map (fun p =>
      match labelColumn with
      | some lc => numLabelOf (getField p.2 lc)
      | none => "Row " ++ Nat.repr (p.1 + 1))
    let datasets := ((columns.filter (fun c => isNumType (getField (results.headD []) c))).take 3).map
      (fun c => (c, (results.take 50).map (fun row =>
        if jsFalsy (getField row c) then Value.vnum 0 else getField row c)))
    ChartOutcome.numericChart labels datasets

/-- The labels of either `updateChart` outcome. -/
def chartOutcomeLabels : ChartOutcome → List String
  | ChartOutcome.countChart labels _ => labels
  | ChartOutcome.numericChart labels _ => labels

/-! ### Time range resolver (`getTimeRangeFilter`, app.js lines 1081-1114) -/

/-- Two-digit zero padding. -/
def pad2 (n : ℕ) : String :=
  if n < 10 then "0" ++ Nat.repr n else Nat.repr n

/-- Three-digit zero padding. -/
def pad3 (n : ℕ) : String :=
  if n < 10 then "00" ++ Nat.repr n else if n < 100 then "0" ++ Nat.repr n else Nat.repr n

/-- Four-digit zero padding. -/
def pad4 (n : ℕ) : String :=
  if n < 10 then "000" ++ Nat.repr n
  else if n < 100 then "00" ++ Nat.repr n
  else if n < 1000 then "0" ++ Nat.repr n
  else Nat.repr n

/-- Proleptic Gregorian (year, month, day) of a day count since
1970-01-01 (standard civil-from-days computation). -/
def civilFromDays (days : ℕ) : ℕ × ℕ × ℕ :=
  let z := days + 719468
  let era := z / 146097
  let doe := z % 146097
  let yoe := (doe - doe / 1460 + doe / 36524 - doe / 146096) / 365
  let y := yoe + era * 400
  let doy := doe - (365 * yoe + yoe / 4 - yoe / 100)
  let mp := (5 * doy + 2) / 153
  let d := doy - (153 * mp + 2) / 5 + 1
  let m := if mp < 10 then mp + 3 else mp - 9
  (if m ≤ 2 then y + 1 else y, m, d)

/-- `new Date(ms).toISOString()` for a non-negative epoch-millisecond
timestamp: `YYYY-MM-DDTHH:MM:SS.mmmZ`. -/
def toISOStringOf (ms : ℕ) : String :=
  let msecs := ms % 1000
  let totalSecs := ms / 1000
  let secs := totalSecs % 60
  let totalMins := totalSecs / 60
  let mins := totalMins % 60
  let totalHours := totalMins / 60
  let hours := totalHours % 24
  let days := totalHours / 24
  match civilFromDays days with
  | (y, m, d) =>
    pad4 y ++ "-" ++ pad2 m ++ "-" ++ pad2 d ++ "T" ++ pad2 hours ++ ":" ++ pad2 mins ++
      ":" ++ pad2 secs ++ "." ++ pad3 msecs ++ "Z"

/-- The `>=` filter clause template of `getTimeRangeFilter`. -/
def tgGeClause (iso : String) : String :=
  "| where TimeGenerated >= datetime(\x27" ++ iso ++ "\x27)"

/-- The `between` filter clause template of `getTimeRangeFilter`. -/
def tgBetweenClause (s e : String) : String :=
  "| where TimeGenerated between (datetime(\x27" ++ s ++ "\x27) .. datetime(\x27" ++ e ++
    "\x27))"

/-- `getTimeRangeFilter()` (app.js lines 1081-1114) as a function of the
selected range, the custom bounds (`none` = unset) and the current
epoch-millisecond time.  An unrecognized selection falls into the
`default` 24h case; `custom` with a missing bound falls through to the
24h lookback. -/
def getTimeRangeFilter (selectedTimeRange : String)
    (customTimeStart customTimeEnd : Option String) (nowMs : ℕ) : String :=
  if selectedTimeRange = "1h" then tgGeClause (toISOStringOf (nowMs - 60 * 60 * 1000))
  else if selectedTimeRange = "6h" then
    tgGeClause (toISOStringOf (nowMs - 6 * 60 * 60 * 1000))
  else if selectedTimeRange = "24h" then
    tgGeClause (toISOStringOf (nowMs - 24 * 60 * 60 * 1000))
  else if selectedTimeRange = "7d" then
    tgGeClause (toISOStringOf (nowMs - 7 * 24 * 60 * 60 * 1000))
  else if selectedTimeRange = "30d" then
    tgGeClause (toISOStringOf (nowMs - 30 * 24 * 60 * 60 * 1000))
  else if selectedTimeRange = "custom" then
    match customTimeStart, customTimeEnd with
    | some s, some e => tgBetweenClause s e
    | _, _ => tgGeClause (toISOStringOf (nowMs - 24 * 60 * 60 * 1000))
  else tgGeClause (toISOStringOf (nowMs - 24 * 60 * 60 * 1000))

/-! ### History and favorites (app.js lines 1187-1228) -/

/-- One history entry. -/
structure HistoryEntry where
  id : ℕ
  query : String
  kql : String
  resultCount : ℕ
  timestamp : String
deriving DecidableEq

/-- One favorites entry. -/
structure FavoriteEntry where
  id : ℕ
  query : String
  kql : String
  timestamp : String
deriving DecidableEq

/-- The slice of application state the history/favorites store mutates. -/
structure AppState where
  queryHistory : List HistoryEntry
  favorites : List FavoriteEntry
deriving DecidableEq

/-- `addToHistory` (lines 1187-1207): drop entries with the same `query`
(case-sensitive `!==`), prepend the new entry, keep the first 50. -/
def addToHistory (hist : List HistoryEntry) (e : HistoryEntry) : List HistoryEntry :=
  (e :: hist.filter (fun h => h.query != e.query)).take 50

/-- `toggleFavorite` (lines 1209-1228): remove the favorite with this
`query` when present, else prepend a fresh entry; the history list is not
touched (the re-render of star icons is presentation only). -/
def toggleFavorite (s : AppState) (query kql : String) (nowId : ℕ) (nowTs : String) :
    AppState :=
  if s.favorites.any (fun f => f.query == query) then
    { s with favorites := s.favorites.filter (fun f => f.query != query) }
  else
    { s with favorites :=
        { id := nowId, query := query, kql := kql, timestamp := nowTs } :: s.favorites }

/-! ### Concrete inputs used by witnesses and counterexamples -/

/-- Four columns, each with two distinct non-numeric values. -/
def dataC1 : List Row :=
  [[("a", Value.vstr "x"), ("b", Value.vstr "x"), ("c", Value.vstr "x"), ("d", Value.vstr "x")],
   [("a", Value.vstr "y"), ("b", Value.vstr "y"), ("c", Value.vstr "y"), ("d", Value.vstr "y")]]

/-- Two rows of one non-numeric column with two distinct values. -/
def dataC1w : List Row :=
  [[("a", Value.vstr "p")], [("a", Value.vstr "q")]]

/-- One row whose sole value is a numeric prefix followed by junk. -/
def dataC2 : List Row := [[("a", Value.vstr "5abc")]]

/-- The numeric stat `calculateStatistics` produces for `dataC2`. -/
def statC2 : NumStat := { column := "a", min := 5, max := 5, avg := 5, sum := 5 }

/-- The `Count` column of the specification's end-to-end example. -/
def dataC3 : List Row :=
  [[("Count", Value.vnum 5)], [("Count", Value.vnum 2)], [("Count", Value.vnum 1)]]

/-- The numeric stat `calculateStatistics` produces for `dataC3`. -/
def statC3 : NumStat := { column := "Count", min := 1, max := 5, avg := 8 / 3, sum := 8 }

/-- A first recording of the query text `"q"`. -/
def entryC4a : HistoryEntry :=
  { id := 1, query := "q", kql := "k1", resultCount := 3, timestamp := "t1" }

/-- A later recording of the same query text. -/
def entryC4b : HistoryEntry :=
  { id := 2, query := "q", kql := "k2", resultCount := 4, timestamp := "t2" }

/-- A single row with a keyword-named numeric column. -/
def dataC5 : List Row := [[("Count", Value.vnum 5)]]

/-- Ten rows with a non-numeric value in column `a`, then one numeric row. -/
def dataC9 : List Row :=
  [[("a", Value.vstr "x")], [("a", Value.vstr "x")], [("a", Value.vstr "x")],
   [("a", Value.vstr "x")], [("a", Value.vstr "x")], [("a", Value.vstr "x")],
   [("a", Value.vstr "x")], [("a", Value.vstr "x")], [("a", Value.vstr "x")],
   [("a", Value.vstr "x")], [("a", Value.vnum 5)]]

/-- Three rows of one column: a string and no null, with a missing third key. -/
def dataC8 : List Row := [[("a", Value.vstr "x")], [("a", Value.vstr "y")], []]

/-- The rendered row for the value `"x"` of `dataC8`: the displayed
percentage is `1/3` of the 3 rows, i.e. 33.3, not `1/2` of the 2 retained
values. -/
def rowC8 : RenderedCatRow := { value := "x", count := 1, pct := 333 / 10 }

/-- The category table produced for `dataC8`. -/
def tableC8 : String × List RenderedCatRow :=
  ("a", [rowC8, { value := "y", count := 1, pct := 333 / 10 }])

/-- Rows whose grouping values render to the keys `"x"`, `"5"`, `"3"`. -/
def dataC10 : List Row :=
  [[("a", Value.vstr "x")], [("a", Value.vnum 5)], [("a", Value.vnum 3)]]

/-- A single all-string row for the fallback-chart witness. -/
def dataC10w : List Row := [[("a", Value.vstr "x")]]

end AzureLog

namespace AzureLog

/-! ## Theorems -/

/-- C4: recording a new history entry removes any existing entry with the
same (case-sensitively compared) query text, prepends the new entry and
truncates to 50; hence recording the same query text twice leaves exactly
one entry with that text — the later one, at the front — and the list
never grows beyond 50 entries. -/
theorem c4_history_dedup (hist : List HistoryEntry) (e1 e2 : HistoryEntry)
    (_hq : e1.query = e2.query) :
    (addToHistory (addToHistory hist e1) e2).head? = some e2 ∧
    (addToHistory (addToHistory hist e1) e2).filter (fun h => h.query == e2.query) = [e2] ∧
    ∀ (h : List HistoryEntry) (e : HistoryEntry), (addToHistory h e).length ≤ 50 := by
  refine ⟨rfl, ?_, fun h e => List.length_take_le 50 _⟩
  show ((e2 :: (addToHistory hist e1).filter (fun h => h.query != e2.query)).take 50).filter
      (fun h => h.query == e2.query) = [e2]
  rw [show (50 : ℕ) = 49 + 1 from rfl, List.take_succ_cons, List.filter_cons]
  simp only [beq_self_eq_true, if_pos]
  rw [List.filter_eq_nil_iff.mpr, List.cons.injEq]
  · exact ⟨rfl, rfl⟩
  · intro x hx
    have hx2 := List.take_subset 49 _ hx
    have := (List.mem_filter.mp hx2).2
    simpa [bne_iff_ne] using this

/-- C4 witness: two recordings of the query text `"q"` on an empty list. -/
theorem c4_history_dedup_witness :
    (addToHistory (addToHistory [] entryC4a) entryC4b).head? = some entryC4b ∧
    (addToHistory (addToHistory [] entryC4a) entryC4b).filter
      (fun h => h.query == entryC4b.query) = [entryC4b] ∧
    (addToHistory [] entryC4a).length ≤ 50 :=
  ⟨(c4_history_dedup [] entryC4a entryC4b rfl).1,
   (c4_history_dedup [] entryC4a entryC4b rfl).2.1,
   (c4_history_dedup [] entryC4a entryC4b rfl).2.2 [] entryC4a⟩

/-- C7: toggling favorite status only rewrites the favorites list; the
query-history list — and with it every entry's `resultCount` and
`timestamp` — is left untouched (the star icons re-rendered afterwards
are presentation only). -/
theorem c7_toggle_favorite_frame (s : AppState) (query kql : String) (nowId : ℕ)
    (nowTs : String) :
    (toggleFavorite s query kql nowId nowTs).queryHistory = s.queryHistory := by
  unfold toggleFavorite
  split <;> rfl

/-- Resolution of the `"1h"` preset. -/
lemma getTimeRangeFilter_1h (s e : Option String) (now : ℕ) :
    getTimeRangeFilter "1h" s e now = tgGeClause (toISOStringOf (now - 60 * 60 * 1000)) := by
  unfold getTimeRangeFilter
  rw [if_pos rfl]

/-- Resolution of the `"6h"` preset. -/
lemma getTimeRangeFilter_6h (s e : Option String) (now : ℕ) :
    getTimeRangeFilter "6h" s e now =
      tgGeClause (toISOStringOf (now - 6 * 60 * 60 * 1000)) := by
  unfold getTimeRangeFilter
  rw [if_neg (by decide), if_pos rfl]

/-- Resolution of the `"24h"` preset. -/
lemma getTimeRangeFilter_24h (s e : Option String) (now : ℕ) :
    getTimeRangeFilter "24h" s e now =
      tgGeClause (toISOStringOf (now - 24 * 60 * 60 * 1000)) := by
  unfold getTimeRangeFilter
  rw [if_neg (by decide), if_neg (by decide), if_pos rfl]

/-- Resolution of the `"7d"` preset. -/
lemma getTimeRangeFilter_7d (s e : Option String) (now : ℕ) :
    getTimeRangeFilter "7d" s e now =
      tgGeClause (toISOStringOf (now - 7 * 24 * 60 * 60 * 1000)) := by
  unfold getTimeRangeFilter
  rw [if_neg (by decide), if_neg (by decide), if_neg (by decide), if_pos rfl]

/-- Resolution of the `"30d"` preset. -/
lemma getTimeRangeFilter_30d (s e : Option String) (now : ℕ) :
    getTimeRangeFilter "30d" s e now =
      tgGeClause (toISOStringOf (now - 30 * 24 * 60 * 60 * 1000)) := by
  unfold getTimeRangeFilter
  rw [if_neg (by decide), if_neg (by decide), if_neg (by decide), if_neg (by decide),
    if_pos rfl]

/-- A custom selection with a missing bound resolves to the 24h lookback
clause. -/
lemma getTimeRangeFilter_custom_missing (s e : Option String) (now : ℕ)
    (h : s = none ∨ e = none) :
    getTimeRangeFilter "custom" s e now =
      tgGeClause (toISOStringOf (now - 24 * 60 * 60 * 1000)) := by
  unfold getTimeRangeFilter
  rw [if_neg (by decide), if_neg (by decide), if_neg (by decide), if_neg (by decide),
    if_neg (by decide), if_pos rfl]
  rcases h with rfl | rfl
  · cases e <;> rfl
  · cases s <;> rfl

/-- C6: each preset resolves to a `TimeGenerated >=` clause at `now` minus
the preset's duration; a custom selection with a missing bound falls back
to the 24h preset's clause; and the `"6h"` preset at
`now = 2024-01-01T12:00:00Z` (epoch ms `1704110400000`) references
`2024-01-01T06:00:00.000Z`. -/
theorem c6_time_range_resolver :
    (∀ (s e : Option String) (now : ℕ), 60 * 60 * 1000 ≤ now →
        getTimeRangeFilter "1h" s e now = tgGeClause (toISOStringOf (now - 60 * 60 * 1000))) ∧
    (∀ (s e : Option String) (now : ℕ), 6 * 60 * 60 * 1000 ≤ now →
        getTimeRangeFilter "6h" s e now =
          tgGeClause (toISOStringOf (now - 6 * 60 * 60 * 1000))) ∧
    (∀ (s e : Option String) (now : ℕ), 24 * 60 * 60 * 1000 ≤ now →
        getTimeRangeFilter "24h" s e now =
          tgGeClause (toISOStringOf (now - 24 * 60 * 60 * 1000))) ∧
    (∀ (s e : Option String) (now : ℕ), 7 * 24 * 60 * 60 * 1000 ≤ now →
        getTimeRangeFilter "7d" s e now =
          tgGeClause (toISOStringOf (now - 7 * 24 * 60 * 60 * 1000))) ∧
    (∀ (s e : Option String) (now : ℕ), 30 * 24 * 60 * 60 * 1000 ≤ now →
        getTimeRangeFilter "30d" s e now =
          tgGeClause (toISOStringOf (now - 30 * 24 * 60 * 60 * 1000))) ∧
    (∀ (s e : Option String) (now : ℕ), s = none ∨ e = none →
        getTimeRangeFilter "custom" s e now = getTimeRangeFilter "24h" s e now) ∧
    getTimeRangeFilter "6h" none none 1704110400000 =
      tgGeClause "2024-01-01T06:00:00.000Z" := by
  refine ⟨fun s e now _ => getTimeRangeFilter_1h s e now,
    fun s e now _ => getTimeRangeFilter_6h s e now,
    fun s e now _ => getTimeRangeFilter_24h s e now,
    fun s e now _ => getTimeRangeFilter_7d s e now,
    fun s e now _ => getTimeRangeFilter_30d s e now,
    fun s e now h => ?_, by decide⟩
  rw [getTimeRangeFilter_custom_missing s e now h, getTimeRangeFilter_24h s e now]

/-- C6 witness: the `"1h"` preset one hour after the epoch, and a custom
selection missing its start bound. -/
theorem c6_time_range_resolver_witness :
    getTimeRangeFilter "1h" none none 3600000 =
      tgGeClause (toISOStringOf (3600000 - 60 * 60 * 1000)) ∧
    getTimeRangeFilter "custom" none (some "B") 86400000 =
      getTimeRangeFilter "24h" none (some "B") 86400000 :=
  ⟨c6_time_range_resolver.1 none none 3600000 (by decide),
   c6_time_range_resolver.2.2.2.2.2.1 none (some "B") 86400000 (Or.inl rfl)⟩

/-- C9 (amended): the chart builder rejects an explicitly preferred value
column only when *no row of the whole data set* (not merely the first
10-row sample) holds a numeric-or-parseable value in it; under that
condition the search resumes exactly as if no preferred column had been
supplied. -/
theorem c9_preferred_column_amended (data : List Row) (columns : List String) (c : String)
    (hnone : ∀ r ∈ data, isNumericish (getField r c) = false) :
    analyzeDataForChart data columns (some c) = analyzeDataForChart data columns none := by
  have hany : (data.any (fun row => isNumericish (getField row c))) = false :=
    List.any_eq_false.mpr (fun x hx => by simp [hnone x hx])
  unfold analyzeDataForChart findValueColumn
  simp only [hany, Bool.false_eq_true, if_false]

/-- C9 counterexample: a preferred column whose first 10 rows are all
non-numeric but whose 11th row is numeric is *kept* (the claim's
first-10-row rejection does not happen). -/
theorem c9_preferred_column_counterexample :
    ((analyzeDataForChart dataC9 ["a"] (some "a")).map (fun cd => cd.valueColumn) = some "a") ∧
    ((dataC9.take 10).map (fun r => isNumericish (getField r "a"))).all (fun b => !b) = true := by
  with_unfolding_all decide

/-- C9 witness: a one-row data set whose only value in the preferred
column is the non-numeric string `"x"`. -/
theorem c9_preferred_column_witness :
    analyzeDataForChart [[("a", Value.vstr "x")]] ["a"] (some "a") =
      analyzeDataForChart [[("a", Value.vstr "x")]] ["a"] none :=
  c9_preferred_column_amended [[("a", Value.vstr "x")]] ["a"] "a" (by decide)

/-- C5: whenever the chart builder finds a value column on a non-empty
result set, it emits one label and one value per input row (an
unparseable value is coerced to `0`, never dropped), and the chart
constructed by `renderChart` takes the first 50 of each, so the rendered
labels and values have equal length at most 50. -/
theorem c5_chart_lengths (data : List Row) (columns : List String) (pref : Option String)
    (cd : ChartData) (_hne : data ≠ [])
    (h : analyzeDataForChart data columns pref = some cd) :
    cd.labels.length = data.length ∧ cd.values.length = data.length ∧
    (∀ v : Value, isNumericish v = false → coerceValue v = 0) ∧
    ∀ rc : RenderedChart, renderChartData data columns pref = some rc →
      rc.labels.length = rc.values.length ∧ rc.labels.length ≤ 50 := by
  unfold analyzeDataForChart at h
  cases hv : findValueColumn data columns pref with
  | none => rw [hv] at h; cases h
  | some vc =>
    rw [hv] at h
    cases h
    refine ⟨List.length_map _ _, List.length_map _ _, ?_, ?_⟩
    · intro v hnv
      cases v with
      | vnum q => simp [isNumericish] at hnv
      | vnull =>
        cases hjp : jsParseFloat Value.vnull with
        | none => simp [coerceValue, hjp]
        | some q => simp [isNumericish, hjp] at hnv
      | vstr s =>
        cases hjp : jsParseFloat (Value.vstr s) with
        | none => simp [coerceValue, hjp]
        | some q => simp [isNumericish, hjp] at hnv
      | vbool b =>
        cases hjp : jsParseFloat (Value.vbool b) with
        | none => simp [coerceValue, hjp]
        | some q => simp [isNumericish, hjp] at hnv
    · intro rc hrc
      unfold renderChartData analyzeDataForChart at hrc
      rw [hv] at hrc
      simp only [Option.map_some] at hrc
      cases hrc
      constructor
      · simp [List.length_take]
      · exact List.length_take_le 50 _

/-- A member of `numericStats` is the numeric outcome of one of the
columns. -/
lemma mem_numericStats {data : List Row} {columns : List String} {s : NumStat}
    (h : s ∈ (calculateStatistics data columns).numericStats) :
    ∃ col ∈ columns, analyzeColumn data col = ColOutcome.num s := by
  unfold calculateStatistics at h
  have h2 := List.take_subset 5 _ h
  rcases List.mem_filterMap.mp h2 with ⟨o, ho, hgo⟩
  rcases List.mem_map.mp ho with ⟨col, hcol, rfl⟩
  refine ⟨col, hcol, ?_⟩
  cases hoc : analyzeColumn data col <;> rw [hoc] at hgo <;>
    simp only [ColOutcome.getNum] at hgo
  · exact congrArg ColOutcome.num (Option.some.inj hgo)
  · cases hgo
  · cases hgo

/-- A member of `categoryStats` is the categorical outcome of one of the
columns. -/
lemma mem_categoryStats {data : List Row} {columns : List String} {s : CatStat}
    (h : s ∈ (calculateStatistics data columns).categoryStats) :
    ∃ col ∈ columns, analyzeColumn data col = ColOutcome.cat s := by
  unfold calculateStatistics at h
  have h2 := List.take_subset 3 _ h
  rcases List.mem_filterMap.mp h2 with ⟨o, ho, hgo⟩
  rcases List.mem_map.mp ho with ⟨col, hcol, rfl⟩
  refine ⟨col, hcol, ?_⟩
  cases hoc : analyzeColumn data col <;> rw [hoc] at hgo <;>
    simp only [ColOutcome.getCat] at hgo
  · cases hgo
  · exact congrArg ColOutcome.cat (Option.some.inj hgo)
  · cases hgo

/-- Shape of a numeric outcome of the per-column loop. -/
lemma analyzeColumn_num_elim {data : List Row} {col : String} {s : NumStat}
    (h : analyzeColumn data col = ColOutcome.num s) :
    0 < (numericValuesOf data col).length ∧
    (numericValuesOf data col).length = (retainedValues data col).length ∧
    s = { column := col
          min := mathMin (numericValuesOf data col)
          max := mathMax (numericValuesOf data col)
          avg := sumList (numericValuesOf data col) / ((numericValuesOf data col).length : ℚ)
          sum := sumList (numericValuesOf data col) } := by
  unfold analyzeColumn at h
  split at h
  · next hc =>
    refine ⟨hc.1, hc.2, ?_⟩
    cases h
    rfl
  · split at h
    · split at h
      · cases h
      · cases h
    · cases h

/-- Shape of a categorical outcome of the per-column loop. -/
lemma analyzeColumn_cat_elim {data : List Row} {col : String} {s : CatStat}
    (h : analyzeColumn data col = ColOutcome.cat s) :
    0 < (retainedValues data col).length ∧
    (countsOf data col).length ≤ 20 ∧ 1 < (countsOf data col).length ∧
    s = { column := col
          values := sortByCountDesc
            ((countsOf data col).map (fun p => { value := p.1, count := p.2 })) } := by
  unfold analyzeColumn at h
  split at h
  · cases h
  · split at h
    · next hret =>
      split at h
      · next hcnt =>
        refine ⟨hret, hcnt.1, hcnt.2, ?_⟩
        cases h
        rfl
      · cases h
    · cases h

/-- A folded minimum is below the seed. -/
lemma foldl_min_le_init (t : List ℚ) (x : ℚ) : t.foldl min x ≤ x := by
  induction t generalizing x with
  | nil => exact le_refl x
  | cons a t ih => exact le_trans (ih (min x a)) (min_le_left x a)

/-- A folded minimum is below every member. -/
lemma foldl_min_le_mem {t : List ℚ} {v : ℚ} (h : v ∈ t) (x : ℚ) : t.foldl min x ≤ v := by
  induction t generalizing x with
  | nil => cases h
  | cons a t ih =>
    rcases List.mem_cons.mp h with rfl | h2
    · exact le_trans (foldl_min_le_init t (min x v)) (min_le_right x v)
    · exact ih h2 (min x a)

/-- `Math.min` of a list is below every member. -/
lemma mathMin_le {l : List ℚ} {v : ℚ} (h : v ∈ l) : mathMin l ≤ v := by
  cases l with
  | nil => cases h
  | cons x t =>
    rcases List.mem_cons.mp h with rfl | h2
    · exact foldl_min_le_init t v
    · exact foldl_min_le_mem h2 x

/-- A folded maximum is above the seed. -/
lemma le_foldl_max_init (t : List ℚ) (x : ℚ) : x ≤ t.foldl max x := by
  induction t generalizing x with
  | nil => exact le_refl x
  | cons a t ih => exact le_trans (le_max_left x a) (ih (max x a))

/-- A folded maximum is above every member. -/
lemma le_foldl_max_mem {t : List ℚ} {v : ℚ} (h : v ∈ t) (x : ℚ) : v ≤ t.foldl max x := by
  induction t generalizing x with
  | nil => cases h
  | cons a t ih =>
    rcases List.mem_cons.mp h with rfl | h2
    · exact le_trans (le_max_right x v) (le_foldl_max_init t (max x v))
    · exact ih h2 (max x a)

/-- `Math.max` of a list is above every member. -/
lemma le_mathMax {l : List ℚ} {v : ℚ} (h : v ∈ l) : v ≤ mathMax l := by
  cases l with
  | nil => cases h
  | cons x t =>
    rcases List.mem_cons.mp h with rfl | h2
    · exact le_foldl_max_init t v
    · exact le_foldl_max_mem h2 x

/-- Shifting the accumulator out of a sum fold. -/
lemma foldl_add_shift (t : List ℚ) (a : ℚ) :
    t.foldl (· + ·) a = a + t.foldl (· + ·) 0 := by
  induction t generalizing a with
  | nil => simp
  | cons x t ih =>
    simp only [List.foldl_cons]
    rw [ih (a + x), ih (0 + x)]
    ring

/-- Unfolding one step of `sumList`. -/
lemma sumList_cons (x : ℚ) (t : List ℚ) : sumList (x :: t) = x + sumList t := by
  unfold sumList
  simp only [List.foldl_cons]
  rw [foldl_add_shift t (0 + x)]
  ring

/-- A uniform lower bound on the members bounds the sum from below. -/
lemma mul_length_le_sumList {l : List ℚ} {m : ℚ} (h : ∀ v ∈ l, m ≤ v) :
    m * (l.length : ℚ) ≤ sumList l := by
  induction l with
  | nil => simp [sumList]
  | cons x t ih =>
    rw [sumList_cons]
    have hx := h x (List.mem_cons_self x t)
    have ht := ih (fun v hv => h v (List.mem_cons_of_mem x hv))
    have hexp : m * (((x :: t).length : ℕ) : ℚ) = m * (t.length : ℚ) + m := by
      push_cast [List.length_cons]
      ring
    rw [hexp]
    linarith

/-- A uniform upper bound on the members bounds the sum from above. -/
lemma sumList_le_mul_length {l : List ℚ} {m : ℚ} (h : ∀ v ∈ l, v ≤ m) :
    sumList l ≤ m * (l.length : ℚ) := by
  induction l with
  | nil => simp [sumList]
  | cons x t ih =>
    rw [sumList_cons]
    have hx := h x (List.mem_cons_self x t)
    have ht := ih (fun v hv => h v (List.mem_cons_of_mem x hv))
    have hexp : m * (((x :: t).length : ℕ) : ℚ) = m * (t.length : ℚ) + m := by
      push_cast [List.length_cons]
      ring
    rw [hexp]
    linarith

/-- C3: every numeric stat the aggregator reports satisfies
`min ≤ avg ≤ max` and `sum = avg * count` exactly (in the rational
idealization of JavaScript numbers — hence a fortiori within
floating-point tolerance), where `count` is the number of retained values
of the reported column. -/
theorem c3_numeric_stats_bounds (data : List Row) (columns : List String) (s : NumStat)
    (hs : s ∈ (calculateStatistics data columns).numericStats) :
    s.min ≤ s.avg ∧ s.avg ≤ s.max ∧
    s.sum = s.avg * ((retainedValues data s.column).length : ℚ) := by
  rcases mem_numericStats hs with ⟨col, _hcol, hnum⟩
  rcases analyzeColumn_num_elim hnum with ⟨hpos, hlen, rfl⟩
  dsimp only
  have hlen0 : (0 : ℚ) < ((numericValuesOf data col).length : ℚ) := by exact_mod_cast hpos
  refine ⟨?_, ?_, ?_⟩
  · rw [le_div_iff₀ hlen0]
    exact mul_length_le_sumList (fun v hv => mathMin_le hv)
  · rw [div_le_iff₀ hlen0]
    exact sumList_le_mul_length (fun v hv => le_mathMax hv)
  · rw [← hlen, div_mul_cancel₀]
    exact ne_of_gt hlen0

/-- C3 witness: the `Count` column of the specification's end-to-end
example (`min = 1`, `max = 5`, `avg = 8/3`, `sum = 8` over 3 rows). -/
theorem c3_numeric_stats_bounds_witness :
    statC3.min ≤ statC3.avg ∧ statC3.avg ≤ statC3.max ∧
    statC3.sum = statC3.avg * ((retainedValues dataC3 statC3.column).length : ℚ) :=
  c3_numeric_stats_bounds dataC3 ["Count"] statC3 (by with_unfolding_all decide)

/-- C2 (amended): a column is reported in `numericStats` only if every
retained value is a native number or is accepted by `parseFloat` — which
parses any *numeric prefix*, not only fully numeric strings.  (The
unamended "fully parseable" reading is refuted by
`c2_numeric_parse_counterexample`.) -/
theorem c2_numeric_parse_amended (data : List Row) (columns : List String) (s : NumStat)
    (hs : s ∈ (calculateStatistics data columns).numericStats) :
    ∀ v ∈ retainedValues data s.column, isNumericish v = true := by
  rcases mem_numericStats hs with ⟨col, _hcol, hnum⟩
  rcases analyzeColumn_num_elim hnum with ⟨_hpos, hlen, rfl⟩
  dsimp only
  intro v hv
  have hflen : ((retainedValues data col).filter isNumericish).length =
      (retainedValues data col).length := by
    simpa [numericValuesOf, List.length_map] using hlen
  exact List.filter_length_eq_length.mp hflen v hv

/-- C2 counterexample: the string `"5abc"` — a numeric prefix followed by
non-numeric characters, hence not fully parseable as a float — still
makes its column a `numericStats` entry (with the prefix value 5), not a
categorical one. -/
theorem c2_numeric_parse_counterexample :
    (calculateStatistics dataC2 ["a"]).numericStats = [statC2] ∧
    specFullyParsesAsFloat "5abc" = false ∧
    (calculateStatistics dataC2 ["a"]).categoryStats = [] := by
  with_unfolding_all decide

/-- C2 witness: the sole retained value of the reported column of
`dataC2` passes the aggregator's numeric test. -/
theorem c2_numeric_parse_witness :
    isNumericish (Value.vstr "5abc") = true :=
  c2_numeric_parse_amended dataC2 ["a"] statC2 (by with_unfolding_all decide)
    (Value.vstr "5abc") (by with_unfolding_all decide)

/-- C5 witness: a one-row result set with the numeric column `Count`. -/
theorem c5_chart_lengths_witness :
    (ChartData.labels ⟨["5"], [5], "Count", "Count"⟩).length = dataC5.length ∧
    (ChartData.values ⟨["5"], [5], "Count", "Count"⟩).length = dataC5.length ∧
    (∀ v : Value, isNumericish v = false → coerceValue v = 0) ∧
    ∀ rc : RenderedChart, renderChartData dataC5 ["Count"] none = some rc →
      rc.labels.length = rc.values.length ∧ rc.labels.length ≤ 50 :=
  c5_chart_lengths dataC5 ["Count"] none ⟨["5"], [5], "Count", "Count"⟩ (by decide)
    (by with_unfolding_all decide)

/-! ### Association-list counter lemmas -/

/-- The keys of a bumped counter: unchanged for a present key, the new
key appended otherwise. -/
lemma keysOf_bump (m : List (String × ℕ)) (k : String) :
    keysOf (bump m k) = insertOnce (keysOf m) k := by
  induction m with
  | nil => simp [bump, keysOf, insertOnce]
  | cons a t ih =>
    obtain ⟨k2, c⟩ := a
    by_cases hk : k2 = k
    · subst hk
      simp [bump, keysOf, insertOnce]
    · rw [show bump ((k2, c) :: t) k = (k2, c) :: bump t k from by simp [bump, hk]]
      show k2 :: keysOf (bump t k) = insertOnce (k2 :: keysOf t) k
      rw [ih]
      unfold insertOnce
      by_cases hm : k ∈ keysOf t
      · rw [if_pos hm, if_pos (List.mem_cons_of_mem _ hm)]
      · rw [if_neg hm, if_neg (by simp [List.mem_cons, hm, Ne.symm hk]), List.cons_append]

/-- The keys of a fold of bumps. -/
lemma keysOf_foldl_bump (keys : List String) (m : List (String × ℕ)) :
    keysOf (keys.foldl bump m) = keys.foldl insertOnce (keysOf m) := by
  induction keys generalizing m with
  | nil => rfl
  | cons k t ih =>
    simp only [List.foldl_cons]
    rw [ih, keysOf_bump]

/-- The keys of the counter built from a key list are its distinct keys
in first-occurrence order. -/
lemma keysOf_countsList (keys : List String) :
    keysOf (countsList keys) = firstOccurrences keys :=
  keysOf_foldl_bump keys []

/-- The counter has one entry per distinct key. -/
lemma length_countsList (keys : List String) :
    (countsList keys).length = (firstOccurrences keys).length := by
  rw [← keysOf_countsList]
  exact (List.length_map _ _).symm

/-- Unfolding a counter lookup over a cons cell. -/
lemma lookupCount_cons (a : String × ℕ) (t : List (String × ℕ)) (k : String) :
    lookupCount (a :: t) k = if a.1 = k then a.2 else lookupCount t k := by
  unfold lookupCount
  by_cases h : a.1 = k
  · rw [List.find?_cons_of_pos _ (by simp [h])]
    simp [h]
  · rw [List.find?_cons_of_neg _ (by simp [h])]
    simp [h]

/-- Bumping a key increments exactly that key's count. -/
lemma lookupCount_bump (m : List (String × ℕ)) (k k2 : String) :
    lookupCount (bump m k) k2 = lookupCount m k2 + (if k = k2 then 1 else 0) := by
  induction m with
  | nil =>
    rw [show bump [] k = [(k, 1)] from rfl, lookupCount_cons]
    by_cases h : k = k2 <;> simp [h, lookupCount, List.find?]
  | cons a t ih =>
    obtain ⟨b, c⟩ := a
    by_cases hb : b = k
    · subst hb
      by_cases h2 : b = k2
      · subst h2
        simp [bump, lookupCount_cons]
      · simp [bump, lookupCount_cons, h2]
    · simp only [bump, if_neg hb]
      by_cases h2 : b = k2
      · subst h2
        have hkk2 : k ≠ b := fun he => hb he.symm
        simp [lookupCount_cons, hkk2]
      · simp [lookupCount_cons, h2, ih]

/-- Folding bumps adds each key's multiplicity. -/
lemma lookupCount_foldl_bump (keys : List String) (m : List (String × ℕ)) (k : String) :
    lookupCount (keys.foldl bump m) k = lookupCount m k + keys.count k := by
  induction keys generalizing m with
  | nil => simp
  | cons k2 t ih =>
    simp only [List.foldl_cons]
    rw [ih (bump m k2), lookupCount_bump, List.count_cons]
    by_cases h : k2 = k
    · simp [h]
      omega
    · simp [h]

/-- The counter built from a key list counts multiplicities. -/
lemma lookupCount_countsList (keys : List String) (k : String) :
    lookupCount (countsList keys) k = keys.count k := by
  have h := lookupCount_foldl_bump keys [] k
  simpa [countsList, lookupCount, List.find?] using h

/-- First-occurrence insertion preserves key distinctness. -/
lemma nodup_foldl_insertOnce (l : List String) (acc : List String) (h : acc.Nodup) :
    (l.foldl insertOnce acc).Nodup := by
  induction l generalizing acc with
  | nil => exact h
  | cons k t ih =>
    apply ih
    unfold insertOnce
    split
    · exact h
    · next hk =>
      rw [List.nodup_append]
      exact ⟨h, List.nodup_singleton k, fun a ha hb => hk ((List.mem_singleton.mp hb) ▸ ha)⟩

/-- The distinct-key list is duplicate free. -/
lemma nodup_firstOccurrences (l : List String) : (firstOccurrences l).Nodup :=
  nodup_foldl_insertOnce l [] List.nodup_nil

/-- Every distinct key occurs in the original list. -/
lemma mem_foldl_insertOnce {l acc : List String} {x : String}
    (h : x ∈ l.foldl insertOnce acc) : x ∈ acc ∨ x ∈ l := by
  induction l generalizing acc with
  | nil => exact Or.inl h
  | cons k t ih =>
    rcases ih h with h2 | h2
    · unfold insertOnce at h2
      split at h2
      · exact Or.inl h2
      · rcases List.mem_append.mp h2 with h3 | h3
        · exact Or.inl h3
        · rw [List.mem_singleton.mp h3]
          exact Or.inr (List.mem_cons_self _ _)
    · exact Or.inr (List.mem_cons_of_mem _ h2)

/-- Specialization of `mem_foldl_insertOnce` to `firstOccurrences`. -/
lemma mem_firstOccurrences {l : List String} {x : String}
    (h : x ∈ firstOccurrences l) : x ∈ l :=
  (mem_foldl_insertOnce h).resolve_left (by simp)

/-- In a counter with distinct keys, each entry's value is its key's
lookup. -/
lemma snd_eq_lookupCount {m : List (String × ℕ)} (hm : (keysOf m).Nodup)
    {p : String × ℕ} (hp : p ∈ m) : p.2 = lookupCount m p.1 := by
  induction m with
  | nil => cases hp
  | cons a t ih =>
    have hm2 := hm
    rw [keysOf, List.map_cons] at hm2
    rcases List.nodup_cons.mp hm2 with ⟨hnotin, hnd⟩
    rcases List.mem_cons.mp hp with rfl | hp2
    · rw [lookupCount_cons, if_pos rfl]
    · have hk : a.1 ≠ p.1 := by
        intro he
        exact hnotin (he ▸ List.mem_map.mpr ⟨p, hp2, rfl⟩)
      rw [lookupCount_cons, if_neg hk]
      exact ih hnd hp2

/-- Each counter entry records the multiplicity of its key. -/
lemma mem_countsList_snd {keys : List String} {p : String × ℕ}
    (hp : p ∈ countsList keys) : p.2 = keys.count p.1 := by
  rw [snd_eq_lookupCount (keysOf_countsList keys ▸ nodup_firstOccurrences keys) hp,
    lookupCount_countsList]

/-- Inserting into the descending sort is a permutation step. -/
lemma insertCatDesc_perm (x : CatEntry) (l : List CatEntry) :
    (insertCatDesc x l).Perm (x :: l) := by
  induction l with
  | nil => exact List.Perm.refl _
  | cons y t ih =>
    unfold insertCatDesc
    split
    · exact List.Perm.refl _
    · exact ((List.perm_cons y).mpr ih).trans (List.Perm.swap x y t)

/-- The stable descending sort is a permutation of its input. -/
lemma sortByCountDesc_perm (l : List CatEntry) : (sortByCountDesc l).Perm l := by
  induction l with
  | nil => exact List.Perm.nil
  | cons x t ih =>
    exact (insertCatDesc_perm x (sortByCountDesc t)).trans ((List.perm_cons x).mpr ih)

/-- C8 (amended): each rendered category row displays
`count / data.length * 100` rounded to one decimal — the divisor is the
*total number of rows*, not the column's retained-value count — and its
`count` is the exact multiplicity of its truncated-string key among the
column's retained values.  (The claim's retained-row divisor is refuted
by `c8_percentage_counterexample`.) -/
theorem c8_percentage_amended (data : List Row) (columns : List String)
    (t : String × List RenderedCatRow)
    (ht : t ∈ showSummaryReportCategoryTables data columns)
    (row : RenderedCatRow) (hr : row ∈ t.2) :
    row.pct = roundTo1 ((row.count : ℚ) / (data.length : ℚ) * 100) ∧
    row.count = ((retainedValues data t.1).map truncKey50).count row.value := by
  unfold showSummaryReportCategoryTables at ht
  rcases List.mem_map.mp ht with ⟨cat, hcat, rfl⟩
  dsimp only at hr ⊢
  rcases mem_categoryStats hcat with ⟨col, _hcol, hcatout⟩
  rcases analyzeColumn_cat_elim hcatout with ⟨_hret, _h20, _h1, rfl⟩
  dsimp only at hr ⊢
  unfold renderCategoryRows at hr
  rcases List.mem_map.mp hr with ⟨v, hv, rfl⟩
  refine ⟨rfl, ?_⟩
  have hv2 : v ∈ sortByCountDesc
      ((countsOf data col).map (fun p => { value := p.1, count := p.2 })) :=
    List.take_subset _ _ hv
  have hv3 := (sortByCountDesc_perm _).mem_iff.mp hv2
  rcases List.mem_map.mp hv3 with ⟨p, hp, rfl⟩
  dsimp only
  exact mem_countsList_snd hp

set_option maxRecDepth 8000 in
/-- C8 counterexample: in a 3-row result set whose column `a` has 2
retained values `"x"`, `"y"`, the renderer displays 33.3 percent for
`"x"` (1 of 3 rows), whereas `count / totalRetainedRows * 100` rounded to
one decimal would be 50. -/
theorem c8_percentage_counterexample :
    showSummaryReportCategoryTables dataC8 ["a"] = [tableC8] ∧
    (retainedValues dataC8 "a").length = 2 ∧
    roundTo1 ((1 : ℚ) / 2 * 100) = 50 ∧
    rowC8.pct ≠ 50 := by
  with_unfolding_all decide

/-- A `filterMap` has as many elements as the predicate "`f` succeeds"
retains. -/
lemma length_filterMap_eq {α β : Type} (f : α → Option β) (l : List α) :
    (l.filterMap f).length = (l.filter (fun a => (f a).isSome)).length := by
  induction l with
  | nil => rfl
  | cons a t ih =>
    rw [List.filterMap_cons, List.filter_cons]
    cases hfa : f a <;> simp [hfa, ih]

/-- Splitting a list at the first occurrence of a member. -/
lemma exists_takeWhile_split {l : List String} {col : String} (h : col ∈ l) :
    ∃ R, l = l.takeWhile (fun c => c != col) ++ col :: R := by
  induction l with
  | nil => cases h
  | cons a t ih =>
    by_cases ha : a = col
    · subst ha
      exact ⟨t, by simp⟩
    · have hcol : col ∈ t := by
        rcases List.mem_cons.mp h with h1 | h2
        · exact absurd h1.symm ha
        · exact h2
      rcases ih hcol with ⟨R, hR⟩
      refine ⟨R, ?_⟩
      have hpa : (a != col) = true := by simp [bne_iff_ne, ha]
      rw [List.takeWhile_cons, hpa]
      simp only [if_true, List.cons_append]
      exact congrArg (a :: ·) hR

/-- Members of the kept prefix differ from the split point. -/
lemma mem_takeWhile_ne {l : List String} {col c : String}
    (h : c ∈ l.takeWhile (fun x => x != col)) : c ≠ col := by
  have := List.mem_takeWhile_imp h
  simpa [bne_iff_ne] using this

/-- A categorical outcome is named after its column. -/
lemma getCat_column {data : List Row} {col : String} {s : CatStat}
    (h : (analyzeColumn data col).getCat = some s) : s.column = col := by
  cases hoc : analyzeColumn data col with
  | num s2 => rw [hoc] at h; cases h
  | skip => rw [hoc] at h; cases h
  | cat s2 =>
    rw [hoc] at h
    simp only [ColOutcome.getCat] at h
    obtain rfl : s2 = s := Option.some.inj h
    rcases analyzeColumn_cat_elim hoc with ⟨_, _, _, rfl⟩
    rfl

/-- The per-column loop pushes onto `categoryStats` exactly when its
categorical projection succeeds. -/
lemma getCat_isSome_eq_isCatCol (data : List Row) (c : String) :
    ((analyzeColumn data c).getCat).isSome = isCatCol data c := by
  cases hoc : analyzeColumn data c <;> simp [ColOutcome.getCat, isCatCol, hoc]

/-- C1 (amended): for a non-numeric column with retained values, the
column appears in `categoryStats` if and only if its distinct
truncated-key count `d` satisfies `1 < d ≤ 20` *and* fewer than 3 earlier
columns already qualified — the aggregator truncates `categoryStats` to
its first 3 entries.  (The claim without the first-3 condition is refuted
by `c1_category_inclusion_counterexample`.) -/
theorem c1_category_inclusion_amended (data : List Row) (columns : List String) (col : String)
    (hnd : columns.Nodup) (hmem : col ∈ columns)
    (hnonnum : isNumCol data col = false)
    (hret : retainedValues data col ≠ []) :
    (∃ cs ∈ (calculateStatistics data columns).categoryStats, cs.column = col) ↔
      (1 < catKeyCountOf data col ∧ catKeyCountOf data col ≤ 20 ∧
        ((columns.takeWhile (fun c => c != col)).filter (isCatCol data)).length < 3) := by
  have hcntlen : (countsOf data col).length = catKeyCountOf data col :=
    length_countsList _
  have hpos : 0 < (retainedValues data col).length := List.length_pos.mpr hret
  have hana : analyzeColumn data col =
      (if (countsOf data col).length ≤ 20 ∧ 1 < (countsOf data col).length then
        ColOutcome.cat
          { column := col
            values := sortByCountDesc
              ((countsOf data col).map (fun p => { value := p.1, count := p.2 })) }
      else ColOutcome.skip) := by
    by_cases hc : 0 < (numericValuesOf data col).length ∧
        (numericValuesOf data col).length = (retainedValues data col).length
    · exfalso
      have hnum : isNumCol data col = true := by
        unfold isNumCol analyzeColumn
        rw [if_pos hc]
      rw [hnum] at hnonnum
      cases hnonnum
    · unfold analyzeColumn
      rw [if_neg hc, if_pos hpos]
  obtain ⟨R, hsplit⟩ := exists_takeWhile_split hmem
  have hcolL : ∀ c ∈ columns.takeWhile (fun x => x != col), c ≠ col :=
    fun c hc => mem_takeWhile_ne hc
  have hcolnotR : col ∉ R := by
    have h2 : ((columns.takeWhile (fun c => c != col)) ++ col :: R).Nodup := hsplit ▸ hnd
    have h3 := (List.nodup_append.mp h2).2.1
    exact (List.nodup_cons.mp h3).1
  have hcs : (calculateStatistics data columns).categoryStats =
      ((columns.filterMap (fun c => (analyzeColumn data c).getCat)).take 3) := by
    unfold calculateStatistics
    dsimp only
    rw [List.filterMap_map]
    rfl
  have hAcol : ∀ cs ∈ (columns.takeWhile (fun c => c != col)).filterMap
      (fun c => (analyzeColumn data c).getCat), cs.column ≠ col := by
    intro cs hcs2
    rcases List.mem_filterMap.mp hcs2 with ⟨c, hcL, hgc⟩
    rw [getCat_column hgc]
    exact hcolL c hcL
  have hBcol : ∀ cs ∈ R.filterMap (fun c => (analyzeColumn data c).getCat),
      cs.column ≠ col := by
    intro cs hcs2
    rcases List.mem_filterMap.mp hcs2 with ⟨c, hcR, hgc⟩
    rw [getCat_column hgc]
    intro he
    exact hcolnotR (he ▸ hcR)
  have hAlen : ((columns.takeWhile (fun c => c != col)).filterMap
      (fun c => (analyzeColumn data c).getCat)).length =
      ((columns.takeWhile (fun c => c != col)).filter (isCatCol data)).length := by
    rw [length_filterMap_eq]
    congr 1
    exact List.filter_congr (fun c _ => getCat_isSome_eq_isCatCol data c)
  by_cases hq : (countsOf data col).length ≤ 20 ∧ 1 < (countsOf data col).length
  · have hq2 : (analyzeColumn data col).getCat = some
        { column := col
          values := sortByCountDesc
            ((countsOf data col).map (fun p => { value := p.1, count := p.2 })) } := by
      rw [hana, if_pos hq]
      rfl
    have hlist : columns.filterMap (fun c => (analyzeColumn data c).getCat) =
        (columns.takeWhile (fun c => c != col)).filterMap
          (fun c => (analyzeColumn data c).getCat) ++
        { column := col
          values := sortByCountDesc
            ((countsOf data col).map (fun p => { value := p.1, count := p.2 })) } ::
        R.filterMap (fun c => (analyzeColumn data c).getCat) := by
      conv_lhs => rw [hsplit]
      rw [List.filterMap_append]
      congr 1
      simp only [List.filterMap_cons, hq2]
    rw [hcs, hlist]
    constructor
    · rintro ⟨cs, hcs3, hcscol⟩
      refine ⟨hcntlen ▸ hq.2, hcntlen ▸ hq.1, ?_⟩
      rw [← hAlen]
      by_contra hge
      push_neg at hge
      rw [List.take_append_eq_append_take, Nat.sub_eq_zero_of_le hge, List.take_zero,
        List.append_nil] at hcs3
      exact hAcol cs (List.take_subset _ _ hcs3) hcscol
    · rintro ⟨_, _, hlt⟩
      rw [← hAlen] at hlt
      refine ⟨{ column := col
                values := sortByCountDesc
                  ((countsOf data col).map (fun p => { value := p.1, count := p.2 })) },
        ?_, rfl⟩
      rw [List.take_append_eq_append_take]
      apply List.mem_append_right
      obtain ⟨k, hk⟩ : ∃ k, 3 - ((columns.takeWhile (fun c => c != col)).filterMap
          (fun c => (analyzeColumn data c).getCat)).length = k + 1 :=
        ⟨3 - ((columns.takeWhile (fun c => c != col)).filterMap
          (fun c => (analyzeColumn data c).getCat)).length - 1, by omega⟩
      rw [hk, List.take_succ_cons]
      exact List.mem_cons_self _ _
  · have hq2 : (analyzeColumn data col).getCat = none := by
      rw [hana, if_neg hq]
      rfl
    have hlist : columns.filterMap (fun c => (analyzeColumn data c).getCat) =
        (columns.takeWhile (fun c => c != col)).filterMap
          (fun c => (analyzeColumn data c).getCat) ++
        R.filterMap (fun c => (analyzeColumn data c).getCat) := by
      conv_lhs => rw [hsplit]
      rw [List.filterMap_append]
      congr 1
      simp only [List.filterMap_cons, hq2]
    rw [hcs, hlist]
    constructor
    · rintro ⟨cs, hcs3, hcscol⟩
      exfalso
      rcases List.mem_append.mp (List.take_subset _ _ hcs3) with hA2 | hB2
      · exact hAcol cs hA2 hcscol
      · exact hBcol cs hB2 hcscol
    · rintro ⟨h1d, h2d, _⟩
      exfalso
      rw [← hcntlen] at h1d h2d
      exact hq ⟨h2d, h1d⟩

set_option maxRecDepth 8000 in
/-- C1 counterexample: with four qualifying two-valued columns, the
fourth (`"d"`) is non-numeric, has retained values and a distinct-key
count of 2 — inside (1, 20] — yet is *not* included in `categoryStats`,
which keeps only the first 3 qualifying columns. -/
theorem c1_category_inclusion_counterexample :
    ((calculateStatistics dataC1 ["a", "b", "c", "d"]).categoryStats.map CatStat.column =
      ["a", "b", "c"]) ∧
    isNumCol dataC1 "d" = false ∧
    retainedValues dataC1 "d" ≠ [] ∧
    1 < catKeyCountOf dataC1 "d" ∧ catKeyCountOf dataC1 "d" ≤ 20 ∧
    ¬∃ cs ∈ (calculateStatistics dataC1 ["a", "b", "c", "d"]).categoryStats,
      cs.column = "d" := by
  with_unfolding_all decide

set_option maxRecDepth 8000 in
/-- C1 witness: a single two-valued string column. -/
theorem c1_category_inclusion_witness :
    (∃ cs ∈ (calculateStatistics dataC1w ["a"]).categoryStats, cs.column = "a") ↔
      (1 < catKeyCountOf dataC1w "a" ∧ catKeyCountOf dataC1w "a" ≤ 20 ∧
        ((["a"].takeWhile (fun c => c != "a")).filter (isCatCol dataC1w)).length < 3) :=
  c1_category_inclusion_amended dataC1w ["a"] "a" (by decide) (by decide)
    (by with_unfolding_all decide) (by with_unfolding_all decide)

set_option maxRecDepth 8000 in
/-- C8 witness: the `"x"` row of the `dataC8` category table. -/
theorem c8_percentage_witness :
    rowC8.pct = roundTo1 ((rowC8.count : ℚ) / (dataC8.length : ℚ) * 100) ∧
    rowC8.count = ((retainedValues dataC8 tableC8.1).map truncKey50).count rowC8.value :=
  c8_percentage_amended dataC8 ["a"] tableC8 (by with_unfolding_all decide) rowC8
    (by with_unfolding_all decide)

set_option maxRecDepth 8000 in
/-- C10 (amended): in the no-numeric-column fallback of `updateChart`,
every falsy grouping value (null/undefined, `0`, the empty string,
`false`) is keyed under the literal `"Unknown"`; the chart has at most 20
groups with values aligned to labels; each group's count is the exact
multiplicity of its key; and the group order is JavaScript object-key
enumeration order — when no key is an integer-like numeral this is
first-occurrence order, but integer-like keys are hoisted to the front in
ascending numeric order (the unconditional first-occurrence order of the
claim is refuted by `c10_fallback_chart_counterexample`). -/
theorem c10_fallback_chart_amended (results : List Row) (columns : List String)
    (hfb : columns.filter (fun c => isNumType (getField (results.headD []) c)) = []) :
    (∀ labels chartData,
      updateChart results columns = ChartOutcome.countChart labels chartData →
      labels.length ≤ 20 ∧ chartData.length = labels.length ∧
      ((∀ k ∈ fallbackKeys results columns, isArrayIndexKey k = false) →
        labels = (firstOccurrences (fallbackKeys results columns)).take 20)) ∧
    (∀ v : Value, jsFalsy v = true → fallbackKey v = "Unknown") ∧
    (∀ k, lookupCount (countsList (fallbackKeys results columns)) k =
      (fallbackKeys results columns).count k) := by
  refine ⟨?_, ?_, fun k => lookupCount_countsList _ k⟩
  · intro labels chartData heq
    unfold updateChart at heq
    rw [hfb] at heq
    simp only [List.isEmpty_nil, if_true] at heq
    injection heq with h1 h2
    refine ⟨?_, ?_, ?_⟩
    · rw [← h1]
      exact List.length_take_le 20 _
    · rw [← h1, ← h2]
      exact List.length_map _ _
    · intro hidx
      rw [← h1]
      have hkeys : keysOf (countsList (fallbackKeys results columns)) =
          firstOccurrences (fallbackKeys results columns) := keysOf_countsList _
      have hidx2 : ∀ k ∈ keysOf (countsList (fallbackKeys results columns)),
          isArrayIndexKey k = false := by
        intro k hk
        exact hidx k (mem_firstOccurrences (hkeys ▸ hk))
      congr 1
      unfold jsObjectKeys
      rw [List.filter_eq_nil_iff.mpr (by intro a ha; simp [hidx2 a ha])]
      rw [show sortKeysAsc [] = [] from rfl, List.nil_append]
      rw [List.filter_eq_self.mpr (by intro a ha; simp [hidx2 a ha])]
      exact hkeys
  · intro v hv
    unfold fallbackKey
    rw [if_pos hv]
    rfl

set_option maxRecDepth 8000 in
/-- C10 counterexample: rows whose truthy values render to the
integer-like keys `"5"` and `"3"` after the string key `"x"`: the chart's
group order is `["3", "5", "x"]` (integer-like keys first, ascending),
not the first-occurrence order `["x", "5", "3"]`. -/
theorem c10_fallback_chart_counterexample :
    chartOutcomeLabels (updateChart dataC10 ["a"]) = ["3", "5", "x"] ∧
    firstOccurrences (fallbackKeys dataC10 ["a"]) = ["x", "5", "3"] ∧
    chartOutcomeLabels (updateChart dataC10 ["a"]) ≠
      (firstOccurrences (fallbackKeys dataC10 ["a"])).take 20 := by
  with_unfolding_all decide

set_option maxRecDepth 100000 in
/-- C10 witness: a one-row all-string result set in the fallback
branch. -/
theorem c10_fallback_chart_witness :
    (["x"] : List String).length ≤ 20 ∧
    ([1] : List ℕ).length = (["x"] : List String).length ∧
    (["x"] : List String) = (firstOccurrences (fallbackKeys dataC10w ["a"])).take 20 ∧
    fallbackKey Value.vnull = "Unknown" ∧
    lookupCount (countsList (fallbackKeys dataC10w ["a"])) "x" =
      (fallbackKeys dataC10w ["a"]).count "x" := by
  have T := c10_fallback_chart_amended dataC10w ["a"] (by decide)
  have T1 := T.1 ["x"] [1] (by with_unfolding_all decide)
  exact ⟨T1.1, T1.2.1, T1.2.2 (by decide), T.2.1 Value.vnull (by decide), T.2.2 "x"⟩

end AzureLog
